import Mathlib

/-!
Verification of the chatms-plugin specification against the repository's
source. The persistence layer is embedded from the reference in-memory
handler `src/tests/mocks.py` (`MockDatabaseHandler`); stores are association
lists in insertion order, mirroring Python dict iteration order. Identifiers
are strings, timestamps are naturals (`datetime.now()` instants are only
compared, never computed with). Nondeterministic inputs of the source
(`uuid.uuid4()`, `datetime.now()`) are passed in as explicit `freshId` /
`now` arguments. Components of the package that are not present under the
repository snapshot (the orchestrator `ChatSystem`, `SecurityManager`,
`ConnectionManager`) are modelled from the specification text and from the
behaviour their in-repository tests assert; each such definition carries a
doc comment saying so.
-/

namespace ChatMS

/-! ## Data model (spec section 3, field names as in the source models) -/

inductive UserRole where
  | owner
  | admin
  | member
deriving DecidableEq

structure User where
  id : String
  username : String
  email : String
  full_name : String
  hashed_password : String
  created_at : Nat
  updated_at : Nat
deriving DecidableEq

structure UserInChat where
  user_id : String
  role : UserRole
deriving DecidableEq

inductive ChatType where
  | one_to_one
  | group
  | channel
deriving DecidableEq

structure Chat where
  id : String
  chat_type : ChatType
  name : String
  description : String
  is_encrypted : Bool
  members : List UserInChat
  created_at : Nat
  updated_at : Nat
deriving DecidableEq

structure Reaction where
  id : String
  user_id : String
  reaction_type : String
  created_at : Nat
deriving DecidableEq

structure Message where
  id : String
  chat_id : String
  sender_id : String
  content : String
  reactions : List Reaction
  is_deleted : Bool
  is_pinned : Bool
  created_at : Nat
  updated_at : Nat
deriving DecidableEq

/-! ## User persistence (MockDatabaseHandler, mocks.py lines 130-165) -/

/-- Python dict assignment `self.users[user.id] = user`: replace the entry
with the same id if present, else append (dicts keep insertion order). -/
def upsertUser (store : List User) (u : User) : List User :=
  if store.any (fun v => v.id == u.id) then
    store.map (fun v => if v.id == u.id then u else v)
  else store ++ [u]

/-- `MockDatabaseHandler.create_user` (mocks.py lines 130-137): assigns a
fresh id when the record has none, stamps `created_at` / `updated_at`, and
stores the user.  It performs no username-uniqueness check. -/
def createUser (freshId : String) (now : Nat) (store : List User) (u : User) :
    List User × User :=
  let u1 := if u.id = "" then { u with id := freshId } else u
  let u2 := { u1 with created_at := now, updated_at := now }
  (upsertUser store u2, u2)

/-- `MockDatabaseHandler.get_user_by_username` (mocks.py lines 143-148). -/
def getUserByUsername (store : List User) (username : String) : Option User :=
  store.find? (fun v => v.username == username)

structure UserCreate where
  username : String
  email : String
  password : String
  full_name : String
deriving DecidableEq

inductive RegError where
  | duplicateUsername
deriving DecidableEq

/-- Modelled from the spec: password hashing (spec section 4.1) lives in
`SecurityManager`, which is not under the repository snapshot; only the
derived value is relevant here. -/
def hashPassword (p : String) : String := "argon2$" ++ p

/-- Modelled from the spec: `ChatSystem.register_user` is not under the
repository snapshot; per spec sections 4.2 and 8 (and its test
`test_user_registration`), registration fails with a duplicate-username
error when the username is already stored, and otherwise hashes the
password and stores the new user via `create_user`. -/
def registerUser (freshId : String) (now : Nat) (store : List User)
    (req : UserCreate) : List User × Except RegError User :=
  if (getUserByUsername store req.username).isSome then
    (store, Except.error RegError.duplicateUsername)
  else
    let r := createUser freshId now store
      { id := "", username := req.username, email := req.email,
        full_name := req.full_name,
        hashed_password := hashPassword req.password,
        created_at := 0, updated_at := 0 }
    (r.1, Except.ok r.2)

/-! ## Chat creation (behaviour asserted by test_chat_system.py lines 175-217) -/

structure ChatCreate where
  name : String
  description : String
  chat_type : ChatType
  member_ids : List String
  is_encrypted : Bool
deriving DecidableEq

/-- Modelled from the spec: `ChatSystem.create_chat` is not under the
repository snapshot. The member roles follow its in-repository test
`test_chat_creation` (test_chat_system.py lines 197-202), which asserts
that the creating user's role is `admin` and every other member's role is
`member`; the creator is always included among the members. -/
def createChat (freshId : String) (now : Nat) (cdata : ChatCreate)
    (creatorId : String) : Chat :=
  let ids := if cdata.member_ids.contains creatorId then cdata.member_ids
             else creatorId :: cdata.member_ids
  { id := freshId, chat_type := cdata.chat_type, name := cdata.name,
    description := cdata.description, is_encrypted := cdata.is_encrypted,
    members := ids.map (fun uid =>
      { user_id := uid,
        role := if uid == creatorId then UserRole.admin else UserRole.member }),
    created_at := now, updated_at := now }

/-! ## Message persistence (MockDatabaseHandler, mocks.py lines 238-329) -/

/-- The message store: `self.messages` dict values in insertion order. -/
abbrev MsgStore := List Message

/-- `self.messages.get(message_id)` (mocks.py lines 247-249). -/
def lookupMsg (store : MsgStore) (mid : String) : Option Message :=
  store.find? (fun m => m.id == mid)

/-- In-place mutation of the stored message with id `mid`,
as in `self.messages[message_id].is_deleted = True`. -/
def updateMsgIn (store : MsgStore) (mid : String) (f : Message → Message) :
    MsgStore :=
  store.map (fun m => if m.id == mid then f m else m)

/-- `MockDatabaseHandler.delete_message` (mocks.py lines 261-269):
with `delete_for_everyone` the row is removed; otherwise the stored
message's `is_deleted` flag is set (content is left untouched); unknown
ids return `false`. -/
def deleteMessage (store : MsgStore) (mid : String)
    (deleteForEveryone : Bool) : MsgStore × Bool :=
  if deleteForEveryone && (lookupMsg store mid).isSome then
    (store.filter (fun m => !(m.id == mid)), true)
  else if (lookupMsg store mid).isSome then
    (updateMsgIn store mid (fun m => { m with is_deleted := true }), true)
  else (store, false)

/-- `MockDatabaseHandler.add_reaction` (mocks.py lines 297-313): when the
message exists, return the first stored reaction with the same
`(user_id, reaction_type)` if any, else append a fresh reaction. -/
def addReaction (store : MsgStore) (mid uid rtype : String)
    (freshId : String) (now : Nat) : MsgStore × Option Reaction :=
  match lookupMsg store mid with
  | some m =>
    match m.reactions.find?
        (fun r => r.user_id == uid && r.reaction_type == rtype) with
    | some r => (store, some r)
    | none =>
      let r : Reaction :=
        { id := freshId, user_id := uid, reaction_type := rtype,
          created_at := now }
      (updateMsgIn store mid
        (fun m0 => { m0 with reactions := m0.reactions ++ [r] }), some r)
  | none => (store, none)

/-- Python truthiness of an optional string argument (`if before_id:`):
`None` and the empty string are falsy. -/
def strTruthy (s : Option String) : Option String :=
  match s with
  | some v => if v = "" then none else some v
  | none => none

/-- Stable insertion of a message into a list sorted by `created_at`
descending, matching `sorted(..., key=lambda x: x.created_at, reverse=True)`
on Python's stable sort: the inserted element goes after every element
whose key is greater than or equal to its own. -/
def sortInsert (m : Message) : List Message → List Message
  | [] => [m]
  | x :: xs =>
    if m.created_at ≤ x.created_at then x :: sortInsert m xs
    else m :: x :: xs

/-- Stable sort by `created_at` descending. -/
def sortByCreatedDesc (l : List Message) : List Message :=
  l.foldl (fun acc m => sortInsert m acc) []

/-- `MockDatabaseHandler.get_chat_messages` (mocks.py lines 271-282):
filter to the chat, apply the `before_id` cursor (strictly older than the
referenced message, silently skipped when the id resolves to no stored
message) and the `after_id` cursor (strictly newer, same skip rule), sort
by `created_at` descending and slice `[skip : skip+limit]`. -/
def getChatMessages (store : MsgStore) (chatId : String)
    (beforeId afterId : Option String) (skip limit : Nat) : List Message :=
  let cm0 := store.filter (fun m => m.chat_id == chatId)
  let cm1 :=
    match strTruthy beforeId with
    | some bid =>
      match lookupMsg store bid with
      | some bm => cm0.filter (fun m => m.created_at < bm.created_at)
      | none => cm0
    | none => cm0
  let cm2 :=
    match strTruthy afterId with
    | some aid =>
      match lookupMsg store aid with
      | some am => cm1.filter (fun m => am.created_at < m.created_at)
      | none => cm1
    | none => cm1
  ((sortByCreatedDesc cm2).drop skip).take limit

/-! ## Chat listing (MockDatabaseHandler.get_user_chats, mocks.py 198-206) -/

/-- `MockDatabaseHandler.get_user_chats`: the chats whose member list
includes the user, in store (insertion) order, sliced `[skip : skip+limit]`.
No ordering by activity is applied. -/
def getUserChats (store : List Chat) (uid : String) (skip limit : Nat) :
    List Chat :=
  (((store.filter (fun c => c.members.any (fun mb => mb.user_id == uid))).drop
    skip).take limit)

/-- Modelled from the spec: the activity timestamp the spec (section 4.2)
says `get_user_chats` orders by — the timestamp of the chat's last message,
falling back to the chat's `updated_at` when it has no messages. Stated
here only to compare the source's behaviour against the spec's words. -/
def chatActivityTs (msgs : MsgStore) (c : Chat) : Nat :=
  let ts := (msgs.filter (fun m => m.chat_id == c.id)).map Message.created_at
  if ts.isEmpty then c.updated_at else ts.foldl max 0

/-! ## Security service (spec section 4.1; SecurityManager is not under
the repository snapshot, so the primitives are modelled from the spec) -/

/-- Modelled from the spec: the AEAD ciphertext produced by
`SecurityManager.encrypt` — a freshly generated nonce, the encrypted body,
and an authentication tag over the body. -/
structure AeadCiphertext where
  nonce : Nat
  body : List Nat
  tag : Nat
deriving DecidableEq

/-- Modelled from the spec: the authentication tag, a keyed digest of the
nonce and the encrypted body. -/
def macOf (key nonce : Nat) (body : List Nat) : Nat :=
  body.foldl (fun a b => (a * 131 + b + 1) % 65536)
    ((key * 131 + nonce) % 65536)

/-- Modelled from the spec: `SecurityManager.encrypt` — authenticated
encryption of a byte sequence under `key` with nonce `nonce`; each byte is
shifted by a key-and-nonce-derived pad modulo 256, and the tag is the
digest of the encrypted body. -/
def sEncrypt (key nonce : Nat) (pt : List Nat) : AeadCiphertext :=
  let body := pt.map (fun b => (b + (key + nonce) % 256) % 256)
  { nonce := nonce, body := body, tag := macOf key nonce body }

/-- Modelled from the spec: `SecurityManager.decrypt` — verifies the
authentication tag before returning the plaintext; a ciphertext whose tag
does not match yields no plaintext. -/
def sDecrypt (key : Nat) (c : AeadCiphertext) : Option (List Nat) :=
  if c.tag = macOf key c.nonce c.body then
    some (c.body.map (fun b => (b + 256 - (key + c.nonce) % 256) % 256))
  else none

/-! ## Token verification and WebSocket upgrade
(simple_server.py lines 502-520 and 577-579; token internals modelled from
the spec since SecurityManager is not under the repository snapshot) -/

structure Token where
  sub : String
  exp : Nat
  sig : Nat
deriving DecidableEq

inductive AuthError where
  | invalidToken
deriving DecidableEq

/-- Modelled from the spec: the signature a well-formed token carries over
its payload under the configured secret. -/
def signOf (secret : String) (sub : String) (e : Nat) : Nat :=
  (secret.length * 1000003 + sub.length * 131 + e) % 1000000007

/-- Modelled from the spec: a token verifies when its signature matches the
secret-derived signature of its payload and it has not expired. -/
def tokenValid (secret : String) (now : Nat) (t : Token) : Bool :=
  t.sig == signOf secret t.sub t.exp && decide (now < t.exp)

/-- Modelled from the spec: `SecurityManager.get_user_id_from_token` —
decodes and verifies the token, returning its subject, and fails with an
authentication error on a bad signature or expiry. -/
def getUserIdFromToken (secret : String) (now : Nat) (t : Token) :
    Except AuthError String :=
  if tokenValid secret now t then Except.ok t.sub
  else Except.error AuthError.invalidToken

/-- Frames the connection engine sends (only the shapes the claims
mention are modelled). -/
inductive Frame where
  | connected (uid : String)
  | userOffline (uid : String)
deriving DecidableEq

/-- Modelled from the spec (section 4.3): the four connection-engine
indices. Sessions are identified by naturals; the maps are association
lists with set-valued entries. -/
structure ConnState where
  user_sessions : List (String × List Nat)
  chat_sessions : List (String × List Nat)
  session_chats : List (Nat × List String)
  session_user : List (Nat × String)
deriving DecidableEq

def ConnState.empty : ConnState :=
  { user_sessions := [], chat_sessions := [],
    session_chats := [], session_user := [] }

/-- Appends a session to the set stored under a key, creating the entry
when absent. -/
def addSession (l : List (String × List Nat)) (k : String) (s : Nat) :
    List (String × List Nat) :=
  if l.any (fun p => p.1 == k) then
    l.map (fun p => if p.1 == k then (p.1, p.2 ++ [s]) else p)
  else l ++ [(k, [s])]

/-- Modelled from the spec: `ConnectionManager.connect` — registers the
session in the user-to-sessions and session-to-user indices and sends the
synthetic connected frame to the new session (the presence fan-out to the
user's chat rooms is not modelled; no claim depends on it). -/
def connect (s : Nat) (uid : String) (st : ConnState) :
    ConnState × List (Nat × Frame) :=
  ({ st with
      user_sessions := addSession st.user_sessions uid s,
      session_user :=
        st.session_user.filter (fun p => !(p.1 == s)) ++ [(s, uid)] },
   [(s, Frame.connected uid)])

/-- Removes a session from every set-valued entry, dropping entries that
become empty (the source's tests assert the key disappears once its last
session leaves). -/
def removeFromLists (s : Nat) (l : List (String × List Nat)) :
    List (String × List Nat) :=
  l.filterMap (fun p =>
    if (p.2.filter (fun x => !(x == s))).isEmpty then none
    else some (p.1, p.2.filter (fun x => !(x == s))))

/-- Modelled from the spec: `ConnectionManager.disconnect` — removes the
session from every index and sends no frame to the closing peer; when the
user's session set becomes empty, a user-offline notification is emitted
to the sessions remaining in the chat rooms the closing session had
joined. -/
def disconnect (s : Nat) (uid : String) (st : ConnState) :
    ConnState × List (Nat × Frame) :=
  let joined := ((st.session_chats.find? (fun p => p.1 == s)).map
    (fun p => p.2)).getD []
  let us := removeFromLists s st.user_sessions
  let cs := removeFromLists s st.chat_sessions
  let sc := st.session_chats.filter (fun p => !(p.1 == s))
  let su := st.session_user.filter (fun p => !(p.1 == s))
  let offline := (us.find? (fun p => p.1 == uid)).isNone
  let frames :=
    if offline then
      joined.flatMap (fun c =>
        (((cs.find? (fun p => p.1 == c)).map (fun p => p.2)).getD []).map
          (fun t => (t, Frame.userOffline uid)))
    else []
  ({ user_sessions := us, chat_sessions := cs,
     session_chats := sc, session_user := su }, frames)

/-- Whether a session occurs anywhere in the four indices. -/
def sessionInIndices (s : Nat) (st : ConnState) : Bool :=
  st.user_sessions.any (fun p => p.2.contains s) ||
  st.chat_sessions.any (fun p => p.2.contains s) ||
  st.session_chats.any (fun p => p.1 == s) ||
  st.session_user.any (fun p => p.1 == s)

inductive WsOutcome where
  | closed (code : Nat)
  | connectedOk
deriving DecidableEq

/-- `websocket_endpoint` (simple_server.py lines 502-520, 577-579): reject
with close code 1008 when the token query parameter is missing, when
verification raises (the outer handler closes with 1008), or when the
token's subject differs from the path's user id; otherwise register the
session via `connect`. The post-accept frame loop is outside this model. -/
def websocketEndpoint (secret : String) (now : Nat) (tok : Option Token)
    (pathUid : String) (s : Nat) (st : ConnState) : WsOutcome × ConnState :=
  match tok with
  | none => (WsOutcome.closed 1008, st)
  | some t =>
    match getUserIdFromToken secret now t with
    | Except.error _ => (WsOutcome.closed 1008, st)
    | Except.ok auth =>
      if auth == pathUid then (WsOutcome.connectedOk, (connect s pathUid st).1)
      else (WsOutcome.closed 1008, st)

/-- Whether the session is registered for the user in the
user-to-sessions index. -/
def sessionRegistered (s : Nat) (uid : String) (st : ConnState) : Bool :=
  st.user_sessions.any (fun p => p.1 == uid && p.2.contains s)

/-! ## Shared helper lemmas -/

/-- Looking up by id after an id-preserving in-place update yields the
update applied to the looked-up message. -/
theorem lookup_updateMsgIn (l : MsgStore) (mid : String)
    (f : Message → Message) (hf : ∀ m, (f m).id = m.id) :
    lookupMsg (updateMsgIn l mid f) mid = (lookupMsg l mid).map f := by
  induction l with
  | nil => rfl
  | cons x xs ih =>
    show lookupMsg ((if x.id == mid then f x else x) :: updateMsgIn xs mid f)
      mid = _
    unfold lookupMsg
    by_cases h : (x.id == mid) = true
    · have hfx : ((f x).id == mid) = true := by rw [hf]; exact h
      rw [if_pos h, List.find?_cons, List.find?_cons, hfx, h]
      rfl
    · have hfalse : (x.id == mid) = false := by simpa using h
      rw [if_neg h, List.find?_cons, List.find?_cons, hfalse]
      exact ih

/-- Looking up an id in a store from which that id was filtered out
finds nothing. -/
theorem lookup_filter_out (l : MsgStore) (mid : String) :
    lookupMsg (l.filter (fun m => !(m.id == mid))) mid = none := by
  rw [lookupMsg, List.find?_eq_none]
  intro a ha
  have h2 := (List.mem_filter.mp ha).2
  simp only [Bool.not_eq_eq_eq_not, Bool.not_true] at h2
  simp [h2]

/-! ## C1 — username uniqueness at registration -/

def aliceUser : User :=
  { id := "", username := "alice", email := "alice@example.com",
    full_name := "Alice", hashed_password := "h1",
    created_at := 0, updated_at := 0 }

def aliceReq : UserCreate :=
  { username := "alice", email := "alice2@example.com",
    password := "Password123", full_name := "Alice Again" }

def aliceStore : List User := (createUser "id1" 0 [] aliceUser).1

/-- C1 counterexample: the persistence operation
`MockDatabaseHandler.create_user` does not enforce username uniqueness —
calling it twice with the username `alice` stores two users with that
username (and raises no error, since it is total on its inputs). -/
theorem createUser_stores_duplicate_username :
    (((createUser "id2" 1 aliceStore aliceUser).1.filter
      (fun u => u.username == "alice")).length) = 2 := by decide

/-- C1 (amended): registration (`ChatSystem.register_user`, modelled from
the spec) fails with the duplicate-username error when the username is
already stored, and leaves the stored user set unchanged. -/
theorem registerUser_duplicate_rejected (freshId : String) (now : Nat)
    (store : List User) (req : UserCreate)
    (h : (getUserByUsername store req.username).isSome = true) :
    (registerUser freshId now store req).1 = store ∧
    (registerUser freshId now store req).2 =
      Except.error RegError.duplicateUsername := by
  unfold registerUser
  rw [if_pos h]
  exact ⟨rfl, rfl⟩

/-- C1 witness: registering `alice` into a store already holding `alice`
is rejected and the store is unchanged. -/
theorem registerUser_duplicate_rejected_witness :
    (registerUser "id9" 5 aliceStore aliceReq).1 = aliceStore ∧
    (registerUser "id9" 5 aliceStore aliceReq).2 =
      Except.error RegError.duplicateUsername :=
  registerUser_duplicate_rejected "id9" 5 aliceStore aliceReq (by decide)

/-! ## C2 — role of the chat creator -/

def demoChatCreate : ChatCreate :=
  { name := "Group Chat", description := "A group chat for testing",
    chat_type := ChatType.group, member_ids := ["u1", "u2"],
    is_encrypted := true }

/-- C2 counterexample: the chat created by `u1` gives the creator the role
`admin`, not `owner` (matching the assertion in `test_chat_creation`). -/
theorem createChat_creator_role_counterexample :
    (createChat "c1" 0 demoChatCreate "u1").members =
      [{ user_id := "u1", role := UserRole.admin },
       { user_id := "u2", role := UserRole.member }] ∧
    UserRole.admin ≠ UserRole.owner := by decide

/-- C2 (amended): every chat-creation request yields a chat containing the
creating user as a member whose role is `admin` (not `owner`), and no
member of the created chat carries the role `owner`. -/
theorem createChat_creator_is_admin (freshId : String) (now : Nat)
    (cdata : ChatCreate) (creatorId : String) :
    UserInChat.mk creatorId UserRole.admin ∈
      (createChat freshId now cdata creatorId).members ∧
    ∀ mb ∈ (createChat freshId now cdata creatorId).members,
      mb.role ≠ UserRole.owner := by
  constructor
  · unfold createChat
    simp only [List.mem_map]
    refine ⟨creatorId, ?_, ?_⟩
    · by_cases h : cdata.member_ids.contains creatorId
      · rw [if_pos h]
        exact List.elem_iff.mp h
      · rw [if_neg h]
        exact List.mem_cons_self _ _
    · simp
  · intro mb hmb
    unfold createChat at hmb
    simp only [List.mem_map] at hmb
    obtain ⟨uid, _, rfl⟩ := hmb
    by_cases h : (uid == creatorId) = true
    · simp [h]
    · simp [h]

/-! ## C3 — delete_message: soft versus hard -/

def demoDelMsg : Message :=
  { id := "m1", chat_id := "c", sender_id := "u", content := "hello",
    reactions := [], is_deleted := false, is_pinned := false,
    created_at := 1, updated_at := 1 }

/-- C3 counterexample: soft-deleting a stored message leaves its content
untouched — afterwards the stored content is still `hello`, not cleared. -/
theorem deleteMessage_soft_keeps_content :
    lookupMsg (deleteMessage [demoDelMsg] "m1" false).1 "m1" =
      some { demoDelMsg with is_deleted := true } ∧
    ({ demoDelMsg with is_deleted := true } : Message).content = "hello" ∧
    "hello" ≠ "" := by decide

/-- C3 (amended): for every stored message, `delete_message` without the
for-everyone flag soft-deletes — the row still exists with
`is_deleted = true` and all other fields (content included) unchanged —
while with the flag the row is removed; both report success. -/
theorem deleteMessage_soft_and_hard (store : MsgStore) (m : Message)
    (hm : lookupMsg store m.id = some m) :
    (deleteMessage store m.id false).2 = true ∧
    lookupMsg (deleteMessage store m.id false).1 m.id =
      some { m with is_deleted := true } ∧
    (deleteMessage store m.id true).2 = true ∧
    lookupMsg (deleteMessage store m.id true).1 m.id = none := by
  have hsome : (lookupMsg store m.id).isSome = true := by rw [hm]; rfl
  refine ⟨?_, ?_, ?_, ?_⟩
  · unfold deleteMessage
    rw [if_neg (by simp), if_pos hsome]
  · unfold deleteMessage
    rw [if_neg (by simp), if_pos hsome]
    show lookupMsg
      (updateMsgIn store m.id (fun m0 => { m0 with is_deleted := true }))
      m.id = _
    rw [lookup_updateMsgIn store m.id
      (fun m0 => { m0 with is_deleted := true }) (fun _ => rfl), hm]
    rfl
  · unfold deleteMessage
    rw [if_pos (by simp [hsome])]
  · unfold deleteMessage
    rw [if_pos (by simp [hsome])]
    exact lookup_filter_out store m.id

/-- C3 witness: soft delete of the stored demo message keeps the row with
`is_deleted` set, hard delete removes it. -/
theorem deleteMessage_soft_and_hard_witness :
    (deleteMessage [demoDelMsg] demoDelMsg.id false).2 = true ∧
    lookupMsg (deleteMessage [demoDelMsg] demoDelMsg.id false).1
      demoDelMsg.id = some { demoDelMsg with is_deleted := true } ∧
    (deleteMessage [demoDelMsg] demoDelMsg.id true).2 = true ∧
    lookupMsg (deleteMessage [demoDelMsg] demoDelMsg.id true).1
      demoDelMsg.id = none :=
  deleteMessage_soft_and_hard [demoDelMsg] demoDelMsg (by decide)

/-! ## C4 — idempotence of add_reaction -/

/-- One `add_reaction` call on a stored message that already holds a
matching reaction: the store is unchanged and the stored reaction is
returned. -/
theorem addReaction_found (store : MsgStore) (mid uid t fid : String)
    (n : Nat) (m : Message) (r : Reaction)
    (hm : lookupMsg store mid = some m)
    (hr : m.reactions.find?
      (fun r0 => r0.user_id == uid && r0.reaction_type == t) = some r) :
    addReaction store mid uid t fid n = (store, some r) := by
  unfold addReaction
  simp only [hm, hr]

/-- One `add_reaction` call on a stored message with no matching reaction:
the fresh reaction is appended to that message and returned. -/
theorem addReaction_not_found (store : MsgStore) (mid uid t fid : String)
    (n : Nat) (m : Message)
    (hm : lookupMsg store mid = some m)
    (hr : m.reactions.find?
      (fun r0 => r0.user_id == uid && r0.reaction_type == t) = none) :
    addReaction store mid uid t fid n =
      (updateMsgIn store mid (fun m0 =>
        { m0 with reactions := m0.reactions ++
          [{ id := fid, user_id := uid, reaction_type := t,
             created_at := n }] }),
       some { id := fid, user_id := uid, reaction_type := t,
              created_at := n }) := by
  unfold addReaction
  simp only [hm, hr]

/-- C4: `add_reaction` is idempotent per `(message, user, type)` — for a
stored message, the second call with the same triple leaves the store (and
hence the reaction set) exactly as after the first call, and returns a
reaction already stored on the message. -/
theorem addReaction_idempotent (store : MsgStore) (mid uid t id1 id2 : String)
    (n1 n2 : Nat) (m : Message) (hm : lookupMsg store mid = some m) :
    ((addReaction (addReaction store mid uid t id1 n1).1 mid uid t id2
        n2).1 = (addReaction store mid uid t id1 n1).1) ∧
    ∃ r, (addReaction (addReaction store mid uid t id1 n1).1 mid uid t id2
        n2).2 = some r ∧
      ∃ m1, lookupMsg (addReaction store mid uid t id1 n1).1 mid = some m1 ∧
        r ∈ m1.reactions := by
  cases hfind : m.reactions.find?
      (fun r0 => r0.user_id == uid && r0.reaction_type == t) with
  | some r =>
    have h1 := addReaction_found store mid uid t id1 n1 m r hm hfind
    have h2 := addReaction_found store mid uid t id2 n2 m r hm hfind
    rw [h1]
    rw [h2]
    exact ⟨rfl, r, rfl, m, hm, List.mem_of_find?_eq_some hfind⟩
  | none =>
    have h1 := addReaction_not_found store mid uid t id1 n1 m hm hfind
    have hlook : lookupMsg (addReaction store mid uid t id1 n1).1 mid =
        some { m with reactions := m.reactions ++
          [{ id := id1, user_id := uid, reaction_type := t,
             created_at := n1 }] } := by
      rw [h1]
      show lookupMsg (updateMsgIn store mid _) mid = _
      rw [lookup_updateMsgIn store mid
        (fun m0 => { m0 with reactions := m0.reactions ++
          [{ id := id1, user_id := uid, reaction_type := t,
             created_at := n1 }] }) (fun _ => rfl), hm]
      rfl
    have hfind2 : ({ m with reactions := m.reactions ++
        [{ id := id1, user_id := uid, reaction_type := t,
           created_at := n1 }] } : Message).reactions.find?
        (fun r0 => r0.user_id == uid && r0.reaction_type == t) =
        some { id := id1, user_id := uid, reaction_type := t,
               created_at := n1 } := by
      show (m.reactions ++ _).find? _ = _
      rw [List.find?_append, hfind]
      simp
    have h2 := addReaction_found (addReaction store mid uid t id1 n1).1
      mid uid t id2 n2 _ _ hlook hfind2
    rw [h2]
    refine ⟨rfl, _, rfl, _, hlook, ?_⟩
    exact List.mem_append_right _ (by simp)

/-- C4 witness: two identical reaction calls on the stored demo message
leave the same store and return a stored reaction. -/
theorem addReaction_idempotent_witness :
    ((addReaction (addReaction [demoDelMsg] "m1" "u1" "like" "r1" 3).1
        "m1" "u1" "like" "r2" 4).1 =
      (addReaction [demoDelMsg] "m1" "u1" "like" "r1" 3).1) ∧
    ∃ r, (addReaction (addReaction [demoDelMsg] "m1" "u1" "like" "r1" 3).1
        "m1" "u1" "like" "r2" 4).2 = some r ∧
      ∃ m1, lookupMsg (addReaction [demoDelMsg] "m1" "u1" "like" "r1" 3).1
          "m1" = some m1 ∧ r ∈ m1.reactions :=
  addReaction_idempotent [demoDelMsg] "m1" "u1" "like" "r1" "r2" 3 4
    demoDelMsg (by decide)

/-! ## Sorting lemmas for get_chat_messages -/

theorem mem_sortInsert (a m : Message) (l : List Message) :
    a ∈ sortInsert m l ↔ a = m ∨ a ∈ l := by
  induction l with
  | nil => simp [sortInsert]
  | cons x xs ih =>
    unfold sortInsert
    by_cases h : m.created_at ≤ x.created_at
    · rw [if_pos h]
      simp only [List.mem_cons, ih]
      tauto
    · rw [if_neg h]
      simp only [List.mem_cons]

theorem pairwise_sortInsert (m : Message) (l : List Message)
    (hl : l.Pairwise (fun p q => q.created_at ≤ p.created_at)) :
    (sortInsert m l).Pairwise (fun p q => q.created_at ≤ p.created_at) := by
  induction l with
  | nil => simp [sortInsert]
  | cons x xs ih =>
    rw [List.pairwise_cons] at hl
    obtain ⟨hx, hxs⟩ := hl
    unfold sortInsert
    by_cases h : m.created_at ≤ x.created_at
    · rw [if_pos h, List.pairwise_cons]
      refine ⟨?_, ih hxs⟩
      intro y hy
      rcases (mem_sortInsert y m xs).mp hy with rfl | hy2
      · exact h
      · exact hx y hy2
    · rw [if_neg h, List.pairwise_cons]
      refine ⟨?_, List.pairwise_cons.mpr ⟨hx, hxs⟩⟩
      intro y hy
      rcases List.mem_cons.mp hy with rfl | hy2
      · omega
      · exact Nat.le_trans (hx y hy2) (by omega)

theorem mem_sortFold (l acc : List Message) (a : Message) :
    a ∈ l.foldl (fun acc0 m => sortInsert m acc0) acc ↔
      a ∈ acc ∨ a ∈ l := by
  induction l generalizing acc with
  | nil => simp
  | cons x xs ih =>
    rw [List.foldl_cons, ih, mem_sortInsert]
    simp only [List.mem_cons]
    tauto

theorem pairwise_sortFold (l acc : List Message)
    (hacc : acc.Pairwise (fun p q => q.created_at ≤ p.created_at)) :
    (l.foldl (fun acc0 m => sortInsert m acc0) acc).Pairwise
      (fun p q => q.created_at ≤ p.created_at) := by
  induction l generalizing acc with
  | nil => simpa using hacc
  | cons x xs ih => exact ih _ (pairwise_sortInsert x acc hacc)

theorem mem_sortByCreatedDesc (l : List Message) (a : Message) :
    a ∈ sortByCreatedDesc l ↔ a ∈ l := by
  unfold sortByCreatedDesc
  rw [mem_sortFold]
  simp

theorem pairwise_sortByCreatedDesc (l : List Message) :
    (sortByCreatedDesc l).Pairwise
      (fun p q => q.created_at ≤ p.created_at) :=
  pairwise_sortFold l [] (by simp)

/-- Members of the sorted, sliced window come from the unsorted list. -/
theorem mem_of_mem_window (l : List Message) (skip limit : Nat)
    (m : Message)
    (hm : m ∈ ((sortByCreatedDesc l).drop skip).take limit) : m ∈ l := by
  have h1 := List.take_subset limit ((sortByCreatedDesc l).drop skip) hm
  have h2 := List.drop_subset skip (sortByCreatedDesc l) h1
  exact (mem_sortByCreatedDesc l m).mp h2

/-! ## get_chat_messages equations under resolved and unresolved cursors -/

theorem strTruthy_some (s : String) (h : s ≠ "") :
    strTruthy (some s) = some s := by
  show (if s = "" then none else some s) = some s
  rw [if_neg h]

theorem strTruthy_none_eq : strTruthy none = none := rfl

theorem strTruthy_empty : strTruthy (some "") = none := rfl

theorem getChatMessages_before_eq (store : MsgStore) (c : String)
    (x : Message) (skip limit : Nat) (hx0 : x.id ≠ "")
    (hx : lookupMsg store x.id = some x) :
    getChatMessages store c (some x.id) none skip limit =
      ((sortByCreatedDesc ((store.filter (fun m => m.chat_id == c)).filter
        (fun m => m.created_at < x.created_at))).drop skip).take limit := by
  unfold getChatMessages
  simp only [strTruthy_some x.id hx0, strTruthy_none_eq, hx]

theorem getChatMessages_after_eq (store : MsgStore) (c : String)
    (y : Message) (skip limit : Nat) (hy0 : y.id ≠ "")
    (hy : lookupMsg store y.id = some y) :
    getChatMessages store c none (some y.id) skip limit =
      ((sortByCreatedDesc ((store.filter (fun m => m.chat_id == c)).filter
        (fun m => y.created_at < m.created_at))).drop skip).take limit := by
  unfold getChatMessages
  simp only [strTruthy_some y.id hy0, strTruthy_none_eq, hy]

theorem getChatMessages_both_eq (store : MsgStore) (c : String)
    (x y : Message) (skip limit : Nat) (hx0 : x.id ≠ "")
    (hx : lookupMsg store x.id = some x) (hy0 : y.id ≠ "")
    (hy : lookupMsg store y.id = some y) :
    getChatMessages store c (some x.id) (some y.id) skip limit =
      ((sortByCreatedDesc (((store.filter (fun m => m.chat_id == c)).filter
        (fun m => m.created_at < x.created_at)).filter
        (fun m => y.created_at < m.created_at))).drop skip).take limit := by
  unfold getChatMessages
  simp only [strTruthy_some x.id hx0, strTruthy_some y.id hy0, hx, hy]

/-- C5: windowed pagination — with `before_id = x.id` every returned
message is strictly older than `x`, with `after_id = y.id` strictly newer
than `y`, both cursors combine, and any returned window is sorted by
`created_at` descending. -/
theorem getChatMessages_window (store : MsgStore) (c : String)
    (x y : Message) (b a : Option String) (skip limit : Nat)
    (hx : lookupMsg store x.id = some x) (hx0 : x.id ≠ "")
    (hy : lookupMsg store y.id = some y) (hy0 : y.id ≠ "") :
    (∀ m ∈ getChatMessages store c (some x.id) none skip limit,
      m.created_at < x.created_at) ∧
    (∀ m ∈ getChatMessages store c none (some y.id) skip limit,
      y.created_at < m.created_at) ∧
    (∀ m ∈ getChatMessages store c (some x.id) (some y.id) skip limit,
      m.created_at < x.created_at ∧ y.created_at < m.created_at) ∧
    (getChatMessages store c b a skip limit).Pairwise
      (fun p q => q.created_at ≤ p.created_at) := by
  refine ⟨?_, ?_, ?_, ?_⟩
  · intro m hm
    rw [getChatMessages_before_eq store c x skip limit hx0 hx] at hm
    have h2 := mem_of_mem_window _ skip limit m hm
    have h3 := (List.mem_filter.mp h2).2
    exact of_decide_eq_true h3
  · intro m hm
    rw [getChatMessages_after_eq store c y skip limit hy0 hy] at hm
    have h2 := mem_of_mem_window _ skip limit m hm
    have h3 := (List.mem_filter.mp h2).2
    exact of_decide_eq_true h3
  · intro m hm
    rw [getChatMessages_both_eq store c x y skip limit hx0 hx hy0 hy] at hm
    have h2 := mem_of_mem_window _ skip limit m hm
    have h3 := (List.mem_filter.mp h2).2
    have h4 := (List.mem_filter.mp (List.mem_filter.mp h2).1).2
    exact ⟨of_decide_eq_true h4, of_decide_eq_true h3⟩
  · unfold getChatMessages
    exact List.Pairwise.sublist
      ((List.take_sublist _ _).trans (List.drop_sublist _ _))
      (pairwise_sortByCreatedDesc _)

def demoMsgA : Message :=
  { id := "ma", chat_id := "c", sender_id := "u", content := "first",
    reactions := [], is_deleted := false, is_pinned := false,
    created_at := 1, updated_at := 1 }

def demoMsgB : Message :=
  { id := "mb", chat_id := "c", sender_id := "u", content := "second",
    reactions := [], is_deleted := false, is_pinned := false,
    created_at := 2, updated_at := 2 }

def demoMsgC : Message :=
  { id := "mc", chat_id := "c", sender_id := "u", content := "third",
    reactions := [], is_deleted := false, is_pinned := false,
    created_at := 3, updated_at := 3 }

def demoMsgStore : MsgStore := [demoMsgA, demoMsgB, demoMsgC]

/-- C5 witness: in the three-message demo chat, the message returned when
paginating before `mb` is strictly older than `mb`. -/
theorem getChatMessages_window_witness :
    demoMsgA.created_at < demoMsgB.created_at :=
  (getChatMessages_window demoMsgStore "c" demoMsgB demoMsgB none none 0 50
      (by decide) (by decide) (by decide) (by decide)).1
    demoMsgA (by decide)

/-! ## C10 — cursors that resolve to no stored message are ignored -/

/-- C10: when `before_id` / `after_id` identify no stored message, the
cursor is silently ignored — the call returns the same descending window
as with the cursor omitted (and, the function being total, it does not
fail). -/
theorem getChatMessages_unknown_cursor (store : MsgStore) (c : String)
    (bid aid : String) (skip limit : Nat)
    (hb : lookupMsg store bid = none) (ha : lookupMsg store aid = none) :
    getChatMessages store c (some bid) (some aid) skip limit =
      getChatMessages store c none none skip limit ∧
    getChatMessages store c (some bid) none skip limit =
      getChatMessages store c none none skip limit ∧
    getChatMessages store c none (some aid) skip limit =
      getChatMessages store c none none skip limit := by
  have hsb : ∀ s : String, lookupMsg store s = none →
      getChatMessages store c (some s) none skip limit =
        getChatMessages store c none none skip limit := by
    intro s hs
    by_cases h0 : s = ""
    · subst h0
      unfold getChatMessages
      simp only [strTruthy_empty, strTruthy_none_eq]
    · unfold getChatMessages
      simp only [strTruthy_some s h0, strTruthy_none_eq, hs]
  have hsa : ∀ s : String, lookupMsg store s = none →
      getChatMessages store c none (some s) skip limit =
        getChatMessages store c none none skip limit := by
    intro s hs
    by_cases h0 : s = ""
    · subst h0
      unfold getChatMessages
      simp only [strTruthy_empty, strTruthy_none_eq]
    · unfold getChatMessages
      simp only [strTruthy_some s h0, strTruthy_none_eq, hs]
  have hboth : getChatMessages store c (some bid) (some aid) skip limit =
      getChatMessages store c (some bid) none skip limit := by
    by_cases h0 : aid = ""
    · subst h0
      unfold getChatMessages
      simp only [strTruthy_empty, strTruthy_none_eq]
    · unfold getChatMessages
      simp only [strTruthy_some aid h0, strTruthy_none_eq, ha]
  exact ⟨hboth.trans (hsb bid hb), hsb bid hb, hsa aid ha⟩

/-- C10 witness: cursors naming the absent id `zz` return the same window
as no cursors on the demo store. -/
theorem getChatMessages_unknown_cursor_witness :
    getChatMessages demoMsgStore "c" (some "zz") (some "zz") 0 50 =
      getChatMessages demoMsgStore "c" none none 0 50 ∧
    getChatMessages demoMsgStore "c" (some "zz") none 0 50 =
      getChatMessages demoMsgStore "c" none none 0 50 ∧
    getChatMessages demoMsgStore "c" none (some "zz") 0 50 =
      getChatMessages demoMsgStore "c" none none 0 50 :=
  getChatMessages_unknown_cursor demoMsgStore "c" "zz" "zz" 0 50
    (by decide) (by decide)

/-! ## C6 — get_user_chats: membership and (lack of) ordering -/

def demoChatOld : Chat :=
  { id := "c1", chat_type := ChatType.group, name := "Old",
    description := "", is_encrypted := false,
    members := [{ user_id := "u", role := UserRole.admin }],
    created_at := 0, updated_at := 5 }

def demoChatNew : Chat :=
  { id := "c2", chat_type := ChatType.group, name := "New",
    description := "", is_encrypted := false,
    members := [{ user_id := "u", role := UserRole.admin }],
    created_at := 0, updated_at := 10 }

/-- C6 counterexample: with two chats of user `u` and no messages, the
first chat returned has strictly older activity (its `updated_at`, the
spec's fallback) than the second — the result is in store order, not
ordered by most recent activity descending. -/
theorem getUserChats_not_activity_ordered :
    getUserChats [demoChatOld, demoChatNew] "u" 0 10 =
      [demoChatOld, demoChatNew] ∧
    chatActivityTs [] demoChatOld < chatActivityTs [] demoChatNew := by
  decide

/-- C6 (amended): for every `skip` and `limit`, `get_user_chats` returns
a window of the chats whose member list includes the user, kept in store
(insertion) order — the result is a sublist of the store, it is exactly
the `skip`/`limit` slice of the full membership-filtered list, the full
list contains precisely the chats having the user among their members,
and every returned chat has the user among its members. No ordering by
recent activity is applied. -/
theorem getUserChats_members_slice (store : List Chat) (uid : String)
    (skip limit : Nat) (c : Chat) :
    List.Sublist (getUserChats store uid skip limit) store ∧
    getUserChats store uid skip limit =
      ((getUserChats store uid 0 store.length).drop skip).take limit ∧
    (c ∈ getUserChats store uid 0 store.length ↔
      c ∈ store ∧
        c.members.any (fun mb => mb.user_id == uid) = true) ∧
    (c ∈ getUserChats store uid skip limit →
      c.members.any (fun mb => mb.user_id == uid) = true) := by
  refine ⟨?_, ?_, ?_, ?_⟩
  · unfold getUserChats
    exact ((List.take_sublist _ _).trans (List.drop_sublist _ _)).trans
      (List.filter_sublist _)
  · unfold getUserChats
    rw [List.drop_zero, List.take_of_length_le (List.length_filter_le _ _)]
  · unfold getUserChats
    rw [List.drop_zero, List.take_of_length_le (List.length_filter_le _ _)]
    exact List.mem_filter
  · intro hc
    unfold getUserChats at hc
    have h1 := List.take_subset _ _ hc
    have h2 := List.drop_subset _ _ h1
    exact (List.mem_filter.mp h2).2

/-! ## C7 — encrypt-then-decrypt round trip -/

theorem byte_roundtrip (s b : Nat) (hs : s < 256) (hb : b < 256) :
    ((b + s) % 256 + 256 - s) % 256 = b := by
  have h1 : (b + s) % 256 + 256 - s = (b + s) % 256 + (256 - s) := by omega
  rw [h1, Nat.mod_add_mod]
  have h2 : b + s + (256 - s) = b + 256 := by omega
  rw [h2, Nat.add_mod_right, Nat.mod_eq_of_lt hb]

theorem sDecrypt_tag_ok (key : Nat) (c : AeadCiphertext)
    (h : c.tag = macOf key c.nonce c.body) :
    sDecrypt key c = some (c.body.map
      (fun b => (b + 256 - (key + c.nonce) % 256) % 256)) := by
  unfold sDecrypt
  rw [if_pos h]

theorem sDecrypt_tag_bad (key : Nat) (c : AeadCiphertext)
    (h : c.tag ≠ macOf key c.nonce c.body) : sDecrypt key c = none := by
  unfold sDecrypt
  rw [if_neg h]

/-- C7: encrypt-then-decrypt is a round trip on every byte sequence (the
UTF-8 bytes of the plaintext), and decrypt verifies the authentication
tag before returning a plaintext — any ciphertext whose tag fails
verification yields none. -/
theorem encrypt_decrypt_roundtrip (key nonce : Nat) (pt : List Nat)
    (h : ∀ b ∈ pt, b < 256) :
    sDecrypt key (sEncrypt key nonce pt) = some pt ∧
    ∀ c : AeadCiphertext, c.tag ≠ macOf key c.nonce c.body →
      sDecrypt key c = none := by
  refine ⟨?_, fun c hc => sDecrypt_tag_bad key c hc⟩
  have ht : (sEncrypt key nonce pt).tag =
      macOf key (sEncrypt key nonce pt).nonce (sEncrypt key nonce pt).body :=
    rfl
  rw [sDecrypt_tag_ok key _ ht]
  show some ((pt.map (fun b => (b + (key + nonce) % 256) % 256)).map
    (fun b => (b + 256 - (key + nonce) % 256) % 256)) = some pt
  rw [List.map_map]
  congr 1
  have hpt : ∀ b ∈ pt,
      ((fun b => (b + 256 - (key + nonce) % 256) % 256) ∘
        (fun b => (b + (key + nonce) % 256) % 256)) b = b := by
    intro b hbm
    exact byte_roundtrip ((key + nonce) % 256) b
      (Nat.mod_lt _ (by omega)) (h b hbm)
  rw [List.map_congr_left hpt]
  exact List.map_id' pt

/-- C7 witness: a concrete three-byte plaintext survives the round trip. -/
theorem encrypt_decrypt_roundtrip_witness :
    sDecrypt 7 (sEncrypt 7 9 [84, 255, 0]) = some [84, 255, 0] :=
  (encrypt_decrypt_roundtrip 7 9 [84, 255, 0] (by decide)).1

/-! ## Connection-engine lemmas -/

theorem contains_filter_out (l : List Nat) (s : Nat) :
    (l.filter (fun x => !(x == s))).contains s = false := by
  cases hc : (l.filter (fun x => !(x == s))).contains s with
  | false => rfl
  | true =>
    exfalso
    have hmem : s ∈ l.filter (fun x => !(x == s)) := List.elem_iff.mp hc
    have hp := (List.mem_filter.mp hmem).2
    simp at hp

theorem removeFromLists_no_session (s : Nat)
    (l : List (String × List Nat)) :
    (removeFromLists s l).any (fun p => p.2.contains s) = false := by
  rw [List.any_eq_false]
  intro p hp
  unfold removeFromLists at hp
  rw [List.mem_filterMap] at hp
  obtain ⟨q, _, hqe0⟩ := hp
  have hqe : (if (q.2.filter (fun x => !(x == s))).isEmpty then none
      else some (q.1, q.2.filter (fun x => !(x == s)))) = some p := hqe0
  by_cases he : (q.2.filter (fun x => !(x == s))).isEmpty = true
  · rw [if_pos he] at hqe
    exact absurd hqe (by simp)
  · rw [if_neg he] at hqe
    have hpq := Option.some.inj hqe
    rw [← hpq]
    show ¬((q.2.filter (fun x => !(x == s))).contains s = true)
    rw [contains_filter_out]
    simp

theorem filter_fst_out {β : Type} (l : List (Nat × β)) (s : Nat) :
    (l.filter (fun p => !(p.1 == s))).any (fun p => p.1 == s) = false := by
  rw [List.any_eq_false]
  intro p hp
  have h2 := (List.mem_filter.mp hp).2
  simp at h2 ⊢
  exact h2

theorem disconnect_state_eq (s : Nat) (uid : String) (st : ConnState) :
    (disconnect s uid st).1 =
      { user_sessions := removeFromLists s st.user_sessions,
        chat_sessions := removeFromLists s st.chat_sessions,
        session_chats := st.session_chats.filter (fun p => !(p.1 == s)),
        session_user := st.session_user.filter (fun p => !(p.1 == s)) } :=
  rfl

theorem disconnect_frames_eq (s : Nat) (uid : String) (st : ConnState) :
    (disconnect s uid st).2 =
      (if ((removeFromLists s st.user_sessions).find?
          (fun p => p.1 == uid)).isNone then
        (((st.session_chats.find? (fun p => p.1 == s)).map
          (fun p => p.2)).getD []).flatMap (fun c =>
          ((((removeFromLists s st.chat_sessions).find?
            (fun p => p.1 == c)).map (fun p => p.2)).getD []).map
            (fun t => (t, Frame.userOffline uid)))
      else []) :=
  rfl

/-! ## C9 — disconnect clears the session from every index -/

/-- C9: after `disconnect(s, u)` returns, the session appears in none of
the four connection-engine indices, and no frame produced by `disconnect`
is addressed to the closing session itself. -/
theorem disconnect_clears_session (s : Nat) (uid : String)
    (st : ConnState) :
    sessionInIndices s (disconnect s uid st).1 = false ∧
    ∀ tf ∈ (disconnect s uid st).2, tf.1 ≠ s := by
  constructor
  · rw [disconnect_state_eq]
    show ((removeFromLists s st.user_sessions).any
        (fun p => p.2.contains s) ||
      (removeFromLists s st.chat_sessions).any
        (fun p => p.2.contains s) ||
      (st.session_chats.filter (fun p => !(p.1 == s))).any
        (fun p => p.1 == s) ||
      (st.session_user.filter (fun p => !(p.1 == s))).any
        (fun p => p.1 == s)) = false
    rw [removeFromLists_no_session, removeFromLists_no_session,
      filter_fst_out, filter_fst_out]
    rfl
  · intro tf htf
    rw [disconnect_frames_eq] at htf
    by_cases ho : ((removeFromLists s st.user_sessions).find?
        (fun p => p.1 == uid)).isNone = true
    · rw [if_pos ho] at htf
      rw [List.mem_flatMap] at htf
      obtain ⟨c, _, htf2⟩ := htf
      rw [List.mem_map] at htf2
      obtain ⟨t, ht, rfl⟩ := htf2
      cases hfind : (removeFromLists s st.chat_sessions).find?
          (fun p => p.1 == c) with
      | none =>
        rw [hfind] at ht
        simp at ht
      | some q =>
        rw [hfind] at ht
        have hq := List.mem_of_find?_eq_some hfind
        have hnos := (List.any_eq_false.mp
          (removeFromLists_no_session s st.chat_sessions)) q hq
        intro hts
        apply hnos
        have : (s : Nat) ∈ q.2 := by
          have ht2 : t ∈ q.2 := ht
          rw [← hts]
          exact ht2
        exact List.elem_eq_true_of_mem this
    · rw [if_neg ho] at htf
      simp at htf

/-! ## C8 — WebSocket upgrade authentication -/

theorem sessionRegistered_connect (s : Nat) (uid : String)
    (st : ConnState) :
    sessionRegistered s uid (connect s uid st).1 = true := by
  show (addSession st.user_sessions uid s).any
    (fun p => p.1 == uid && p.2.contains s) = true
  unfold addSession
  by_cases h : st.user_sessions.any (fun p => p.1 == uid) = true
  · rw [if_pos h]
    rw [List.any_eq_true] at h ⊢
    obtain ⟨p, hp, hpk⟩ := h
    refine ⟨(p.1, p.2 ++ [s]), List.mem_map.mpr ⟨p, hp, by rw [if_pos hpk]⟩,
      ?_⟩
    simp only [hpk, Bool.true_and]
    simp
  · rw [if_neg h]
    rw [List.any_eq_true]
    exact ⟨(uid, [s]), List.mem_append_right _ (by simp), by simp⟩

/-- C8: the WebSocket upgrade at `/ws/{user_id}` is rejected with close
code 1008 — leaving the connection state untouched, so no session is
registered — precisely when the token is missing, fails verification, or
carries a subject different from the path's user id; in every other case
the connection is accepted and the session is registered for the path's
user. -/
theorem websocketEndpoint_auth (secret : String) (now : Nat)
    (tok : Option Token) (pathUid : String) (s : Nat) (st : ConnState) :
    ((tok = none ∨ ∃ t, tok = some t ∧
        (tokenValid secret now t = false ∨ t.sub ≠ pathUid)) →
      (websocketEndpoint secret now tok pathUid s st).1 =
          WsOutcome.closed 1008 ∧
      (websocketEndpoint secret now tok pathUid s st).2 = st) ∧
    (¬ (tok = none ∨ ∃ t, tok = some t ∧
        (tokenValid secret now t = false ∨ t.sub ≠ pathUid)) →
      (websocketEndpoint secret now tok pathUid s st).1 =
          WsOutcome.connectedOk ∧
      sessionRegistered s pathUid
        (websocketEndpoint secret now tok pathUid s st).2 = true) ∧
    ((websocketEndpoint secret now tok pathUid s st).1 =
        WsOutcome.closed 1008 →
      (tok = none ∨ ∃ t, tok = some t ∧
        (tokenValid secret now t = false ∨ t.sub ≠ pathUid))) := by
  cases tok with
  | none =>
    exact ⟨fun _ => ⟨rfl, rfl⟩, fun hn => absurd (Or.inl rfl) hn,
      fun _ => Or.inl rfl⟩
  | some t =>
    by_cases hv : tokenValid secret now t = true
    · by_cases hsub : t.sub = pathUid
      · have he : websocketEndpoint secret now (some t) pathUid s st =
            (WsOutcome.connectedOk, (connect s pathUid st).1) := by
          simp [websocketEndpoint, getUserIdFromToken, hv, hsub]
        refine ⟨?_, ?_, ?_⟩
        · intro hcond
          exfalso
          rcases hcond with h0 | ⟨t2, ht2, hbad⟩
          · exact Option.noConfusion h0
          · have : t2 = t := (Option.some.inj ht2).symm
            subst this
            rcases hbad with h1 | h1
            · rw [hv] at h1
              exact Bool.noConfusion h1
            · exact h1 hsub
        · intro _
          rw [he]
          exact ⟨rfl, sessionRegistered_connect s pathUid st⟩
        · rw [he]
          intro habs
          exact absurd habs (by simp)
      · have he : websocketEndpoint secret now (some t) pathUid s st =
            (WsOutcome.closed 1008, st) := by
          simp [websocketEndpoint, getUserIdFromToken, hv, hsub]
        refine ⟨fun _ => ⟨by rw [he], by rw [he]⟩, ?_, ?_⟩
        · intro hn
          exact absurd (Or.inr ⟨t, rfl, Or.inr hsub⟩) hn
        · intro _
          exact Or.inr ⟨t, rfl, Or.inr hsub⟩
    · have hvf : tokenValid secret now t = false := by
        cases hb : tokenValid secret now t with
        | false => rfl
        | true => exact absurd hb hv
      have he : websocketEndpoint secret now (some t) pathUid s st =
          (WsOutcome.closed 1008, st) := by
        simp [websocketEndpoint, getUserIdFromToken, hvf]
      refine ⟨fun _ => ⟨by rw [he], by rw [he]⟩, ?_, ?_⟩
      · intro hn
        exact absurd (Or.inr ⟨t, rfl, Or.inl hvf⟩) hn
      · intro _
        exact Or.inr ⟨t, rfl, Or.inl hvf⟩

/-- C8 witness: a missing token is rejected with close code 1008 and the
empty connection state is unchanged. -/
theorem websocketEndpoint_auth_witness :
    (websocketEndpoint "secret" 0 none "u" 1 ConnState.empty).1 =
        WsOutcome.closed 1008 ∧
    (websocketEndpoint "secret" 0 none "u" 1 ConnState.empty).2 =
        ConnState.empty :=
  (websocketEndpoint_auth "secret" 0 none "u" 1 ConnState.empty).1
    (Or.inl rfl)

end ChatMS
